import Mathlib

/-!
# The Athenz initializer: pod mutation

A shallow embedding of `cmd/athenz-initializer/initializer.go`.

Conventions of the embedding.

* A Go slice is the list of its elements (a nil slice and an empty slice are both `[]`).
* A Go map with string keys is a `GoMap`: a list of entries with pairwise distinct keys.
  The order in which a `range` loop visits a map is not specified by the language; each
  `range` over a map goes through a `RangeOrder`, an arbitrary rearrangement of the entries.
* A function that updates the pod through its pointer returns the updated pod.
* `yaml.Unmarshal` belongs to a library outside the repository and is a parameter
  (`Unmarshal`): from the text and the value the target holds before the call it gives the
  value the target holds after the call and the error.
* A `Serializer` is given the pod to read: it is a function of the pod's value.
* The fields of the Kubernetes types that the program never looks at are kept in one
  field `Other` of each structure.
-/

namespace AthenzInitializer

/-! ## Go runtime values -/

/-- The text `fmt.Sprintf(format, args...)`, kept as the format and its arguments. -/
structure Formatted where
  format : String
  args : List String
deriving DecidableEq, Repr

/-- Go `error` values (the nil error is `none : Option GoError`). -/
inductive GoError where
  /-- an error made outside this program (the YAML library, a serializer) -/
  | other (text : String)
  /-- the error of `util.CheckFields`: the checked structure and its missing fields -/
  | missingFields (what : String) (fields : List String)
  /-- the result of `errors.Wrap(cause, message)` -/
  | wrap (cause : GoError) (message : Formatted)
deriving DecidableEq, Repr

/-- A Go `map[string]α`: entries with pairwise distinct keys. -/
structure GoMap (α : Type) where
  entries : List (String × α)
  nodup : (entries.map Prod.fst).Nodup

namespace GoMap

variable {α : Type}

/-- The literal `map[string]α{}`. -/
def empty : GoMap α := ⟨[], List.nodup_nil⟩

/-- The keys of the map. -/
def keys (m : GoMap α) : List String := m.entries.map Prod.fst

/-- The expression `m[k]`, where `zero` is the zero value of the element type. -/
def get (zero : α) (m : GoMap α) (k : String) : α :=
  match m.entries.find? (fun e => e.1 = k) with
  | some e => e.2
  | none => zero

/-- The statement `m[k] = v`. -/
def set (m : GoMap α) (k : String) (v : α) : GoMap α :=
  ⟨(m.entries.filter (fun e => e.1 ≠ k)) ++ [(k, v)], by
    rw [List.map_append, List.nodup_append]
    refine ⟨?_, by simp, ?_⟩
    · exact (List.Nodup.sublist ((List.filter_sublist m.entries).map Prod.fst) m.nodup)
    · intro a ha hb
      simp only [List.map_cons, List.map_nil, List.mem_singleton] at hb
      subst hb
      simp only [List.mem_map, List.mem_filter] at ha
      obtain ⟨e, ⟨_, he⟩, rfl⟩ := ha
      simp at he⟩

instance [DecidableEq α] : DecidableEq (GoMap α) := fun a b =>
  decidable_of_iff (a.entries = b.entries)
    ⟨fun h => by cases a; cases b; cases h; rfl, fun h => h ▸ rfl⟩

end GoMap

/-- The order in which `range` visits the entries of a map: some rearrangement of them. -/
structure RangeOrder where
  order : {α : Type} → List (String × α) → List (String × α)
  perm : ∀ {α : Type} (l : List (String × α)), (order l).Perm l

/-- The visiting order that follows the stored entries. -/
def RangeOrder.stored : RangeOrder := ⟨fun l => l, fun l => List.Perm.refl l⟩

/-- The visiting order that goes through the stored entries backwards. -/
def RangeOrder.backwards : RangeOrder := ⟨fun l => l.reverse, fun l => List.reverse_perm l⟩

/-- Go `strings.LastIndex(s, sep)` for a separator of one character, `-1` when absent.
Positions count characters. -/
def LastIndex (s : String) (sep : Char) : Int :=
  let rec go : List Char → Nat → Int → Int
    | [], _, acc => acc
    | c :: cs, i, acc => go cs (i + 1) (if c = sep then (i : Int) else acc)
  go s.data 0 (-1)

/-! ## Kubernetes types (`k8s.io/api/core/v1`) -/

structure EnvVar where
  Name : String
  Value : String := ""
  ValueFrom : Option String := none
deriving DecidableEq, Repr

structure VolumeMount where
  Name : String
  MountPath : String := ""
  Other : String := ""
deriving DecidableEq, Repr

structure Container where
  Name : String := ""
  Image : String := ""
  Env : List EnvVar := []
  VolumeMounts : List VolumeMount := []
  Other : String := ""
deriving DecidableEq, Repr

structure EmptyDirVolumeSource where
  Medium : String := ""
  SizeLimit : Option String := none
deriving DecidableEq, Repr

/-- The volume source: the `EmptyDir` pointer, and the other source kinds together. -/
structure VolumeSource where
  EmptyDir : Option EmptyDirVolumeSource := none
  Other : Option String := none
deriving DecidableEq, Repr

structure Volume where
  Name : String
  VolumeSource : VolumeSource := {}
deriving DecidableEq, Repr

structure PodSpec where
  Volumes : List Volume := []
  InitContainers : List Container := []
  Containers : List Container := []
  Other : String := ""
deriving DecidableEq, Repr

structure Pod where
  Annotations : Option (GoMap String) := none
  Spec : PodSpec := {}
  Other : String := ""
deriving DecidableEq

/-- The expression `pod.Annotations[key]`; indexing a nil map gives the zero value. -/
def Pod.annotation (pod : Pod) (key : String) : String :=
  match pod.Annotations with
  | some m => m.get "" key
  | none => ""

/-- The library function `yaml.Unmarshal(text, &target)`: the target after the call and
the error. -/
abbrev Unmarshal := String → Container → Container × Option GoError

/-! ## The program -/

/-- `type Serializer func(pod *v1.Pod) (map[string]string, error)`. -/
abbrev Serializer := Pod → Except GoError (GoMap String)

structure initConfig where
  Name : String := ""
  AnnotationTrigger : String := ""
  RemoveImages : List String := []
  InitTemplate : String := ""
  RefreshTemplate : String := ""
deriving DecidableEq, Repr

/-- Modelled from the spec: `util.CheckFields` of the package `internal/util`, whose source
is not at hand. It is given the name of the checked structure and, for each field, whether
the field is missing; it fails when some field is missing, and the error names all the
missing fields. -/
def CheckFields (what : String) (fields : GoMap Bool) : Option GoError :=
  let missing := (fields.entries.filter (fun e => e.2)).map Prod.fst
  if missing = [] then none else some (GoError.missingFields what missing)

def initConfig.assertValid (ic : initConfig) : Option GoError :=
  CheckFields "initConfig"
    ⟨[("Name", decide (ic.Name = "")),
      ("InitTemplate", decide (ic.InitTemplate = "")),
      ("RefreshTemplate", decide (ic.RefreshTemplate = ""))], by simp⟩

structure initializer where
  config : initConfig
  serializer : Serializer

def newInitializer (unmarshal : Unmarshal) (config : initConfig) (serializer : Serializer) :
    Except GoError initializer :=
  match config.assertValid with
  | some err => Except.error err
  | none =>
    let templateContainer : Container := {}
    let r := unmarshal config.InitTemplate templateContainer
    let templateContainer := r.1
    match r.2 with
    | some err =>
      Except.error (GoError.wrap err ⟨"bad init template %q", [config.InitTemplate]⟩)
    | none =>
      let r := unmarshal config.RefreshTemplate templateContainer
      match r.2 with
      | some err =>
        Except.error (GoError.wrap err ⟨"bad refresh template %q", [config.RefreshTemplate]⟩)
      | none => Except.ok ⟨config, serializer⟩

def initializer.Name (i : initializer) : String := i.config.Name

/-- The image name with the version cut off (lines 67-72 of the source):
`pos := strings.LastIndex(im, ":"); if pos >= 0 { im = im[:pos] }`. -/
def imageWithoutVersion (image : String) : String :=
  let im := image
  let pos := LastIndex im ':'
  if pos ≥ 0 then String.mk (im.data.take pos.toNat) else im

/-- The closure `filterContainers` of `Update`. The inner loop over `RemoveImages` has no
state of its own; its `continue` goes to the next entry of `RemoveImages`, as does the end
of its body. After the inner loop the container is appended. -/
def filterContainers (removeImages : List String) (containers : List Container) :
    List Container :=
  containers.foldl
    (fun list c =>
      let im := imageWithoutVersion c.Image
      let _afterInner : Unit :=
        removeImages.foldl (fun u name => if im = name then u else u) ()
      list ++ [c])
    []

/-- The closure `addMissingVolumes` of `Update`, on the pod it captures. -/
def addMissingVolumes (ro : RangeOrder) (pod : Pod) (containers : List Container) : Pod :=
  let requiredVolumeMap : GoMap Bool :=
    containers.foldl
      (fun m c => c.VolumeMounts.foldl (fun m vm => m.set vm.Name true) m)
      GoMap.empty
  let existingVolumeMap : GoMap Bool :=
    pod.Spec.Volumes.foldl (fun m v => m.set v.Name true) GoMap.empty
  (ro.order requiredVolumeMap.entries).foldl
    (fun pod e =>
      let k := e.1
      if !(existingVolumeMap.get false k) then
        { pod with Spec := { pod.Spec with
            Volumes := pod.Spec.Volumes ++
              [{ Name := k, VolumeSource := { EmptyDir := some {} } }] } }
      else pod)
    pod

/-- The method `Update`: the pod after the call and the returned error. -/
def initializer.Update (unmarshal : Unmarshal) (ro : RangeOrder) (i : initializer)
    (pod : Pod) : Pod × Option GoError :=
  if i.config.AnnotationTrigger ≠ "" ∧
      (pod.Annotations = none ∨ pod.annotation i.config.AnnotationTrigger ≠ "true") then
    (pod, none)
  else
    let pod : Pod := { pod with Spec := { pod.Spec with
      InitContainers := filterContainers i.config.RemoveImages pod.Spec.InitContainers } }
    let pod : Pod := { pod with Spec := { pod.Spec with
      Containers := filterContainers i.config.RemoveImages pod.Spec.Containers } }
    let siaInitContainer : Container := (unmarshal i.config.InitTemplate {}).1
    let siaRefreshContainer : Container := (unmarshal i.config.RefreshTemplate {}).1
    match i.serializer pod with
    | Except.error err => (pod, some err)
    | Except.ok env =>
      let sia : Container × Container :=
        (ro.order env.entries).foldl
          (fun s kv =>
            let e : EnvVar := { Name := kv.1, Value := kv.2 }
            ({ s.1 with Env := s.1.Env ++ [e] }, { s.2 with Env := s.2.Env ++ [e] }))
          (siaInitContainer, siaRefreshContainer)
      let siaInitContainer := sia.1
      let siaRefreshContainer := sia.2
      let pod : Pod := { pod with Spec := { pod.Spec with
        InitContainers := [siaInitContainer] ++ pod.Spec.InitContainers } }
      let pod : Pod := { pod with Spec := { pod.Spec with
        Containers := [siaRefreshContainer] ++ pod.Spec.Containers } }
      (addMissingVolumes ro pod [siaInitContainer, siaRefreshContainer], none)

/-! ## Auxiliary notions used in the statements -/

/-- The pod passes the gate of lines 109-113: the trigger is empty or the pod's annotation
for the trigger is `"true"`. -/
def initializer.eligible (i : initializer) (pod : Pod) : Prop :=
  i.config.AnnotationTrigger = "" ∨ pod.annotation i.config.AnnotationTrigger = "true"

instance (i : initializer) (pod : Pod) : Decidable (i.eligible pod) := by
  unfold initializer.eligible; infer_instance

/-- The pod as lines 115-116 leave it: both container lists filtered. This is the pod
handed to the serializer. -/
def initializer.filteredPod (i : initializer) (pod : Pod) : Pod :=
  { pod with Spec := { pod.Spec with
      InitContainers := filterContainers i.config.RemoveImages pod.Spec.InitContainers,
      Containers := filterContainers i.config.RemoveImages pod.Spec.Containers } }

/-- The environment entry of line 129. -/
def envEntry (kv : String × String) : EnvVar := { Name := kv.1, Value := kv.2 }

/-- The entries that the loop of lines 128-132 appends, in the order of the visit. -/
def injectedEnv (ro : RangeOrder) (env : GoMap String) : List EnvVar :=
  (ro.order env.entries).map envEntry

/-- The volume of lines 99-104. -/
def emptyDirVolume (k : String) : Volume :=
  { Name := k, VolumeSource := { EmptyDir := some {} } }

/-- The names of the volume mounts of some containers. -/
def mountNames (containers : List Container) : List String :=
  containers.flatMap (fun c => c.VolumeMounts.map (fun vm => vm.Name))

/-- The init template as line 121 parses it, into a zero-valued container. -/
def initializer.parsedInit (unmarshal : Unmarshal) (i : initializer) : Container :=
  (unmarshal i.config.InitTemplate {}).1

/-- The refresh template as line 122 parses it, into a zero-valued container. -/
def initializer.parsedRefresh (unmarshal : Unmarshal) (i : initializer) : Container :=
  (unmarshal i.config.RefreshTemplate {}).1

/-- The init container that `Update` injects when the serializer gives `env`. -/
def initializer.injectedInit (unmarshal : Unmarshal) (ro : RangeOrder) (i : initializer)
    (env : GoMap String) : Container :=
  { i.parsedInit unmarshal with Env := (i.parsedInit unmarshal).Env ++ injectedEnv ro env }

/-- The refresh container that `Update` injects when the serializer gives `env`. -/
def initializer.injectedRefresh (unmarshal : Unmarshal) (ro : RangeOrder) (i : initializer)
    (env : GoMap String) : Container :=
  { i.parsedRefresh unmarshal with
      Env := (i.parsedRefresh unmarshal).Env ++ injectedEnv ro env }

/-- The filter as the comment of lines 62-63 and the specification word it: the containers
whose image without version equals no entry of `removeImages`, in their original order. -/
def filterContainersSpec (removeImages : List String) (containers : List Container) :
    List Container :=
  containers.filter (fun c => decide (imageWithoutVersion c.Image ∉ removeImages))

/-- How many entries of the env of a container have the name `k`. -/
def envNameCount (k : String) (c : Container) : Nat :=
  (c.Env.map (fun e => e.Name)).count k

/-- The number of dots of a name. -/
def dots (name : String) : Nat := name.data.count '.'

/-- An assumption on the library function `yaml.Unmarshal`: whether it fails depends on the
text (and on the type of the target), not on the value that the target holds before the
call. -/
def Unmarshal.FailureByText (unmarshal : Unmarshal) : Prop :=
  ∀ (text : String) (c c' : Container), (unmarshal text c).2 = none → (unmarshal text c').2 = none

/-- Every value stored in the map is `true`. -/
def GoMap.AllTrue (m : GoMap Bool) : Prop := ∀ e ∈ m.entries, e.2 = true

/-! ## Sample values -/

/-- A template for the init container. -/
def sampleInitTemplate : String :=
  "name: sia-init\nimage: sia:1.0\nenv:\n- name: MODE\n  value: init\nvolumeMounts:\n- name: tls-certs\n  mountPath: /tokens\n"

/-- A template for the refresh container. -/
def sampleRefreshTemplate : String :=
  "name: sia-refresh\nimage: sia:1.0\nvolumeMounts:\n- name: tls-certs\n  mountPath: /tokens\n- name: sia-sock\n  mountPath: /var/run/sia\n"

/-- What `yaml.Unmarshal` does on the two sample templates: the fields that the document
names are set in the target, the others are kept. Every other text is taken as malformed. -/
def sampleUnmarshal : Unmarshal := fun text target =>
  if text = sampleInitTemplate then
    ({ target with
        Name := "sia-init", Image := "sia:1.0",
        Env := [{ Name := "MODE", Value := "init" }],
        VolumeMounts := [{ Name := "tls-certs", MountPath := "/tokens" }] }, none)
  else if text = sampleRefreshTemplate then
    ({ target with
        Name := "sia-refresh", Image := "sia:1.0",
        VolumeMounts := [{ Name := "tls-certs", MountPath := "/tokens" },
                         { Name := "sia-sock", MountPath := "/var/run/sia" }] }, none)
  else (target, some (GoError.other "yaml: cannot unmarshal into v1.Container"))

/-- A serializer that succeeds with two entries on every pod. -/
def sampleSerializer : Serializer := fun _ =>
  Except.ok ⟨[("ATHENZ_DOMAIN", "k8s.prod"), ("ATHENZ_SERVICE", "web")], by decide⟩

/-- A serializer that fails on every pod. -/
def failingSerializer : Serializer := fun _ =>
  Except.error (GoError.other "no identity for the pod")

/-- A configuration with a trigger annotation and a legacy image to remove. -/
def sampleConfig : initConfig :=
  { Name := "sia.athenz.yahoo.com",
    AnnotationTrigger := "athenz/inject",
    RemoveImages := ["legacy/sia"],
    InitTemplate := sampleInitTemplate,
    RefreshTemplate := sampleRefreshTemplate }

/-- A pod with the trigger annotation set to `"true"`, a legacy init container, an
application container and one volume. -/
def samplePod : Pod :=
  { Annotations := some ⟨[("athenz/inject", "true")], by decide⟩,
    Spec := {
      Volumes := [{ Name := "tls-certs", VolumeSource := { Other := some "secret" } }],
      InitContainers := [{ Name := "old-sia", Image := "legacy/sia:1.2" },
                         { Name := "setup", Image := "app:1.0" }],
      Containers := [{ Name := "app", Image := "app:1.0" }] } }

/-- The map that `sampleSerializer` gives. -/
def sampleEnv : GoMap String :=
  ⟨[("ATHENZ_DOMAIN", "k8s.prod"), ("ATHENZ_SERVICE", "web")], by decide⟩

/-- The sample configuration with the serializer that succeeds. -/
def sampleInitializer : initializer := ⟨sampleConfig, sampleSerializer⟩

/-- The sample configuration with the serializer that fails. -/
def failingInitializer : initializer := ⟨sampleConfig, failingSerializer⟩

/-- A map with the key `MODE`, a name that the env of the sample init template has too. -/
def collidingEnv : GoMap String := ⟨[("MODE", "refresh")], by decide⟩

/-- A serializer that gives `collidingEnv` on every pod. -/
def collidingSerializer : Serializer := fun _ => Except.ok collidingEnv

/-- The sample configuration with a name that has no dot. -/
def shortNameConfig : initConfig := { sampleConfig with Name := "sia" }

/-- The sample configuration with nothing to remove. -/
def plainConfig : initConfig := { sampleConfig with RemoveImages := [] }

/-- The configuration with nothing to remove, with the serializer that succeeds. -/
def plainInitializer : initializer := ⟨plainConfig, sampleSerializer⟩

/-- The sample pod after a first `Update`: it already holds the two injected containers. -/
def mutatedPod : Pod :=
  (plainInitializer.Update sampleUnmarshal RangeOrder.stored samplePod).1

/-- The sample pod without any volume: the mount `tls-certs` of both sample templates is
missing. -/
def volumelessPod : Pod := { samplePod with Spec := { samplePod.Spec with Volumes := [] } }

/-- What `yaml.Unmarshal` does on the sample templates and on the documents `{}` and
`null`: these two are well-formed, set no field of the target and give no error. -/
def lenientUnmarshal : Unmarshal := fun text target =>
  if text = "\x7b\x7d" ∨ text = "null" then (target, none) else sampleUnmarshal text target

/-- The sample configuration with the templates `{}` and `null`. -/
def emptyDocConfig : initConfig :=
  { sampleConfig with InitTemplate := "\x7b\x7d", RefreshTemplate := "null" }

/-- A serializer that succeeds with a map without entries on every pod. -/
def emptySerializer : Serializer := fun _ => Except.ok GoMap.empty

/-- The sample pod with the trigger annotation set to `"false"`. -/
def untriggeredPod : Pod :=
  { samplePod with Annotations := some ⟨[("athenz/inject", "false")], by decide⟩ }

/-! ## Lemmas on the Go runtime values -/

theorem GoMap.get_of_mem {α : Type} (zero : α) (m : GoMap α) (k : String) (v : α)
    (h : (k, v) ∈ m.entries) : m.get zero k = v := by
  obtain ⟨l, hl⟩ := m
  simp only [GoMap.get]
  simp only at h
  induction l with
  | nil => simp at h
  | cons e l ih =>
    simp only [List.map_cons, List.nodup_cons] at hl
    by_cases hk : e.1 = k
    · simp only [List.find?_cons, hk, decide_True]
      rcases List.mem_cons.1 h with h1 | h1
      · rw [← h1]
      · exact absurd (List.mem_map.2 ⟨(k, v), h1, rfl⟩) (hk ▸ hl.1)
    · simp only [List.find?_cons, hk, decide_False]
      rcases List.mem_cons.1 h with h1 | h1
      · exact absurd (by rw [← h1]) hk
      · exact ih hl.2 h1

theorem GoMap.mem_of_get_ne {α : Type} (zero : α) (m : GoMap α) (k : String)
    (h : m.get zero k ≠ zero) : (k, m.get zero k) ∈ m.entries := by
  simp only [GoMap.get] at h ⊢
  cases hf : m.entries.find? (fun e => e.1 = k) with
  | none => simp [hf] at h
  | some e =>
    simp only [hf]
    have h1 := List.mem_of_find?_eq_some hf
    have h2 := List.find?_some hf
    simp only [decide_eq_true_eq] at h2
    rw [← h2]
    exact h1

theorem filterContainers_acc (removeImages : List String) (containers acc : List Container) :
    containers.foldl
      (fun list c =>
        let im := imageWithoutVersion c.Image
        let _afterInner : Unit :=
          removeImages.foldl (fun u name => if im = name then u else u) ()
        list ++ [c])
      acc = acc ++ containers := by
  induction containers generalizing acc with
  | nil => simp
  | cons c cs ih => simp only [List.foldl_cons]; rw [ih]; simp

theorem filterContainers_eq (removeImages : List String) (containers : List Container) :
    filterContainers removeImages containers = containers := by
  exact (filterContainers_acc removeImages containers []).trans (List.nil_append containers)

theorem Update_of_not_eligible (unmarshal : Unmarshal) (ro : RangeOrder) (i : initializer)
    (pod : Pod) (h : ¬ i.eligible pod) : i.Update unmarshal ro pod = (pod, none) := by
  unfold initializer.eligible at h
  push_neg at h
  unfold initializer.Update
  rw [if_pos ⟨h.1, Or.inr h.2⟩]

theorem GoMap.mem_keys_set {α : Type} (m : GoMap α) (k k' : String) (v : α) :
    k' ∈ (m.set k v).keys ↔ k' = k ∨ k' ∈ m.keys := by
  simp only [GoMap.keys, GoMap.set, List.map_append, List.mem_append, List.mem_map,
    List.mem_filter, List.map_cons, List.map_nil, List.mem_singleton]
  constructor
  · rintro (⟨e, ⟨he, _⟩, rfl⟩ | h)
    · exact Or.inr ⟨e, he, rfl⟩
    · exact Or.inl h
  · rintro (h | ⟨e, he, rfl⟩)
    · exact Or.inr h
    · by_cases hk : e.1 = k
      · exact Or.inr hk
      · exact Or.inl ⟨e, ⟨he, by simpa using hk⟩, rfl⟩

theorem GoMap.allTrue_set (m : GoMap Bool) (k : String) (h : m.AllTrue) :
    (m.set k true).AllTrue := by
  intro e he
  simp only [GoMap.set, List.mem_append, List.mem_filter, List.mem_singleton] at he
  rcases he with ⟨he, _⟩ | he
  · exact h e he
  · rw [he]

theorem GoMap.get_eq_true_iff (m : GoMap Bool) (k : String) (h : m.AllTrue) :
    m.get false k = true ↔ k ∈ m.keys := by
  constructor
  · intro hg
    have := GoMap.mem_of_get_ne false m k (by rw [hg]; decide)
    exact List.mem_map.2 ⟨_, this, rfl⟩
  · intro hk
    obtain ⟨e, he, rfl⟩ := List.mem_map.1 hk
    have h2 : e.2 = true := h e he
    have := GoMap.get_of_mem false m e.1 e.2 he
    rw [this, h2]

theorem GoMap.foldl_set_true {β : Type} (f : β → String) (l : List β) (m : GoMap Bool) :
    (m.AllTrue → (l.foldl (fun m x => m.set (f x) true) m).AllTrue) ∧
    ∀ k, k ∈ (l.foldl (fun m x => m.set (f x) true) m).keys ↔ k ∈ l.map f ∨ k ∈ m.keys := by
  induction l generalizing m with
  | nil => simp
  | cons x xs ih =>
    simp only [List.foldl_cons, List.map_cons, List.mem_cons]
    refine ⟨fun h => (ih _).1 (GoMap.allTrue_set m (f x) h), fun k => ?_⟩
    rw [(ih _).2 k, GoMap.mem_keys_set]
    tauto

theorem requiredVolumeMap_spec (containers : List Container) (m : GoMap Bool) :
    (m.AllTrue →
      (containers.foldl
        (fun m c => c.VolumeMounts.foldl (fun m vm => m.set vm.Name true) m) m).AllTrue) ∧
    ∀ k, k ∈ (containers.foldl
        (fun m c => c.VolumeMounts.foldl (fun m vm => m.set vm.Name true) m) m).keys ↔
      k ∈ mountNames containers ∨ k ∈ m.keys := by
  induction containers generalizing m with
  | nil => simp [mountNames]
  | cons c cs ih =>
    simp only [List.foldl_cons]
    have hin := GoMap.foldl_set_true (fun vm : VolumeMount => vm.Name) c.VolumeMounts m
    refine ⟨fun h => (ih _).1 (hin.1 h), fun k => ?_⟩
    rw [(ih _).2 k, hin.2 k]
    simp only [mountNames, List.flatMap_cons, List.mem_append]
    tauto

theorem foldl_env (l : List (String × String)) (a b : Container) :
    l.foldl
      (fun (s : Container × Container) kv =>
        let e : EnvVar := { Name := kv.1, Value := kv.2 }
        ({ s.1 with Env := s.1.Env ++ [e] }, { s.2 with Env := s.2.Env ++ [e] }))
      (a, b)
    = ({ a with Env := a.Env ++ l.map envEntry }, { b with Env := b.Env ++ l.map envEntry }) := by
  induction l generalizing a b with
  | nil => simp
  | cons kv l ih =>
    simp only [List.foldl_cons, List.map_cons]
    rw [ih]
    simp [envEntry]

theorem foldl_addVolume (existing : GoMap Bool) (l : List (String × Bool)) (pod : Pod) :
    l.foldl
      (fun (pod : Pod) e =>
        let k := e.1
        if !(existing.get false k) then
          { pod with Spec := { pod.Spec with
              Volumes := pod.Spec.Volumes ++
                [{ Name := k, VolumeSource := { EmptyDir := some {} } }] } }
        else pod)
      pod
    = { pod with Spec := { pod.Spec with
          Volumes := pod.Spec.Volumes ++
            ((l.filter (fun e => !(existing.get false e.1))).map
              (fun e => emptyDirVolume e.1)) } } := by
  induction l generalizing pod with
  | nil => simp
  | cons e l ih =>
    simp only [List.foldl_cons]
    rw [ih]
    by_cases h : existing.get false e.1 = true
    · simp [h]
    · simp [h, emptyDirVolume]

/-- The volumes that `addMissingVolumes` leaves: the volumes of the pod, then one
`EmptyDir` volume for each visited key of the required map that names no volume of the pod. -/
theorem addMissingVolumes_volumes (ro : RangeOrder) (pod : Pod) (containers : List Container) :
    ∃ added : List String,
      addMissingVolumes ro pod containers
        = { pod with Spec := { pod.Spec with
              Volumes := pod.Spec.Volumes ++ added.map emptyDirVolume } } ∧
      added.Nodup ∧
      ∀ k, k ∈ added ↔
        k ∈ mountNames containers ∧ k ∉ pod.Spec.Volumes.map (fun v => v.Name) := by
  have hreq := requiredVolumeMap_spec containers GoMap.empty
  have hex := GoMap.foldl_set_true (fun v : Volume => v.Name) pod.Spec.Volumes GoMap.empty
  have hempty : (GoMap.empty : GoMap Bool).AllTrue := by intro e he; simp [GoMap.empty] at he
  generalize hR : containers.foldl
      (fun m c => c.VolumeMounts.foldl (fun m vm => m.set vm.Name true) m)
      (GoMap.empty : GoMap Bool) = req at hreq
  generalize hE : pod.Spec.Volumes.foldl (fun m v => m.set v.Name true)
      (GoMap.empty : GoMap Bool) = existing at hex
  refine ⟨((ro.order req.entries).filter (fun e => !(existing.get false e.1))).map Prod.fst,
    ?_, ?_, ?_⟩
  · unfold addMissingVolumes
    simp only [hR, hE]
    rw [foldl_addVolume]
    simp [List.map_map, Function.comp_def]
  · have hp : ((ro.order req.entries).map Prod.fst).Perm (req.entries.map Prod.fst) :=
      (ro.perm req.entries).map Prod.fst
    have hn : ((ro.order req.entries).map Prod.fst).Nodup := hp.nodup_iff.2 req.nodup
    exact List.Nodup.sublist ((List.filter_sublist _).map Prod.fst) hn
  · intro k
    have hget := GoMap.get_eq_true_iff existing k (hex.1 hempty)
    have hk1 := hreq.2 k
    have hk2 := hex.2 k
    simp only [GoMap.keys, GoMap.empty, List.map_nil, List.not_mem_nil, or_false] at hk1 hk2
    simp only [GoMap.keys] at hget
    simp only [List.mem_map, List.mem_filter, Bool.not_eq_true', Bool.not_eq_eq_eq_not,
      Bool.not_true]
    constructor
    · rintro ⟨e, ⟨he, hne⟩, rfl⟩
      have hmem : e.1 ∈ req.entries.map Prod.fst :=
        List.mem_map.2 ⟨e, (ro.perm req.entries).mem_iff.1 he, rfl⟩
      refine ⟨hk1.1 hmem, fun hc => ?_⟩
      have := hget.2 (hk2.2 (List.mem_map.2 hc))
      rw [this] at hne
      exact absurd hne (by decide)
    · rintro ⟨hm, hnot⟩
      obtain ⟨e, he, rfl⟩ := List.mem_map.1 (hk1.2 hm)
      refine ⟨e, ⟨(ro.perm req.entries).mem_iff.2 he, ?_⟩, rfl⟩
      cases hg : existing.get false e.1 with
      | false => rfl
      | true => exact absurd (List.mem_map.1 (hk2.1 (hget.1 hg))) hnot

theorem Update_of_error (unmarshal : Unmarshal) (ro : RangeOrder) (i : initializer)
    (pod : Pod) (err : GoError) (hel : i.eligible pod)
    (hs : i.serializer (i.filteredPod pod) = Except.error err) :
    i.Update unmarshal ro pod = (i.filteredPod pod, some err) := by
  have hneg : ¬ (i.config.AnnotationTrigger ≠ "" ∧
      (pod.Annotations = none ∨ pod.annotation i.config.AnnotationTrigger ≠ "true")) := by
    rintro ⟨h1, h2⟩
    rcases hel with h | h
    · exact h1 h
    · rcases h2 with h2 | h2
      · simp [Pod.annotation, h2] at h
      · exact h2 h
  unfold initializer.Update
  rw [if_neg hneg]
  have hs2 : i.serializer
      { Annotations := pod.Annotations,
        Spec := { Volumes := pod.Spec.Volumes,
                  InitContainers :=
                    filterContainers i.config.RemoveImages pod.Spec.InitContainers,
                  Containers := filterContainers i.config.RemoveImages pod.Spec.Containers,
                  Other := pod.Spec.Other },
        Other := pod.Other } = Except.error err := hs
  simp only [hs2]
  rfl

theorem Update_of_ok (unmarshal : Unmarshal) (ro : RangeOrder) (i : initializer)
    (pod : Pod) (env : GoMap String) (hel : i.eligible pod)
    (hs : i.serializer (i.filteredPod pod) = Except.ok env) :
    i.Update unmarshal ro pod =
      (addMissingVolumes ro
        { pod with Spec := { pod.Spec with
            InitContainers := i.injectedInit unmarshal ro env ::
              filterContainers i.config.RemoveImages pod.Spec.InitContainers,
            Containers := i.injectedRefresh unmarshal ro env ::
              filterContainers i.config.RemoveImages pod.Spec.Containers } }
        [i.injectedInit unmarshal ro env, i.injectedRefresh unmarshal ro env], none) := by
  have hneg : ¬ (i.config.AnnotationTrigger ≠ "" ∧
      (pod.Annotations = none ∨ pod.annotation i.config.AnnotationTrigger ≠ "true")) := by
    rintro ⟨h1, h2⟩
    rcases hel with h | h
    · exact h1 h
    · rcases h2 with h2 | h2
      · simp [Pod.annotation, h2] at h
      · exact h2 h
  unfold initializer.Update
  rw [if_neg hneg]
  have hs2 : i.serializer
      { Annotations := pod.Annotations,
        Spec := { Volumes := pod.Spec.Volumes,
                  InitContainers :=
                    filterContainers i.config.RemoveImages pod.Spec.InitContainers,
                  Containers := filterContainers i.config.RemoveImages pod.Spec.Containers,
                  Other := pod.Spec.Other },
        Other := pod.Other } = Except.ok env := hs
  simp only [hs2, foldl_env]
  rfl

/-- The pod that `Update` leaves when the pod is eligible and the serializer gives `env`. -/
theorem Update_ok_pod (unmarshal : Unmarshal) (ro : RangeOrder) (i : initializer)
    (pod : Pod) (env : GoMap String) (hel : i.eligible pod)
    (hs : i.serializer (i.filteredPod pod) = Except.ok env) :
    ∃ added : List String,
      (i.Update unmarshal ro pod).1 =
        { pod with Spec := { pod.Spec with
            InitContainers := i.injectedInit unmarshal ro env ::
              filterContainers i.config.RemoveImages pod.Spec.InitContainers,
            Containers := i.injectedRefresh unmarshal ro env ::
              filterContainers i.config.RemoveImages pod.Spec.Containers,
            Volumes := pod.Spec.Volumes ++ added.map emptyDirVolume } } ∧
      added.Nodup ∧
      ∀ k, k ∈ added ↔
        k ∈ mountNames [i.injectedInit unmarshal ro env, i.injectedRefresh unmarshal ro env] ∧
        k ∉ pod.Spec.Volumes.map (fun v => v.Name) := by
  rw [Update_of_ok unmarshal ro i pod env hel hs]
  obtain ⟨added, h1, h2, h3⟩ := addMissingVolumes_volumes ro
    { pod with Spec := { pod.Spec with
        InitContainers := i.injectedInit unmarshal ro env ::
          filterContainers i.config.RemoveImages pod.Spec.InitContainers,
        Containers := i.injectedRefresh unmarshal ro env ::
          filterContainers i.config.RemoveImages pod.Spec.Containers } }
    [i.injectedInit unmarshal ro env, i.injectedRefresh unmarshal ro env]
  exact ⟨added, h1, h2, h3⟩

theorem assertValid_eq_none_iff (ic : initConfig) :
    ic.assertValid = none ↔
      (ic.Name ≠ "" ∧ ic.InitTemplate ≠ "" ∧ ic.RefreshTemplate ≠ "") := by
  by_cases h1 : ic.Name = "" <;> by_cases h2 : ic.InitTemplate = "" <;>
    by_cases h3 : ic.RefreshTemplate = "" <;>
    simp [initConfig.assertValid, CheckFields, h1, h2, h3]

theorem eligible_congr (i : initializer) (pod pod' : Pod)
    (h : pod'.Annotations = pod.Annotations) : i.eligible pod' ↔ i.eligible pod := by
  unfold initializer.eligible Pod.annotation
  rw [h]

/-- What `Update` leaves of the pod outside the three fields, in each of its outcomes. -/
theorem Update_outside (unmarshal : Unmarshal) (ro : RangeOrder) (i : initializer)
    (pod : Pod) :
    (i.Update unmarshal ro pod).1.Annotations = pod.Annotations ∧
    (i.Update unmarshal ro pod).1.Other = pod.Other ∧
    (i.Update unmarshal ro pod).1.Spec.Other = pod.Spec.Other := by
  by_cases hel : i.eligible pod
  · cases hs : i.serializer (i.filteredPod pod) with
    | error e =>
      rw [Update_of_error unmarshal ro i pod e hel hs]
      exact ⟨rfl, rfl, rfl⟩
    | ok env =>
      obtain ⟨added, h, -, -⟩ := Update_ok_pod unmarshal ro i pod env hel hs
      rw [h]
      exact ⟨rfl, rfl, rfl⟩
  · rw [Update_of_not_eligible unmarshal ro i pod hel]
    exact ⟨rfl, rfl, rfl⟩

theorem newInitializer_ok (unmarshal : Unmarshal) (config : initConfig)
    (serializer : Serializer) (i : initializer)
    (h : newInitializer unmarshal config serializer = Except.ok i) :
    i = ⟨config, serializer⟩ ∧ config.assertValid = none ∧
    (unmarshal config.InitTemplate {}).2 = none ∧
    (unmarshal config.RefreshTemplate (unmarshal config.InitTemplate {}).1).2 = none := by
  unfold newInitializer at h
  cases ha : config.assertValid with
  | some e0 => simp [ha] at h
  | none =>
    cases h1 : (unmarshal config.InitTemplate {}).2 with
    | some e1 => simp [ha, h1] at h
    | none =>
      cases h2 : (unmarshal config.RefreshTemplate (unmarshal config.InitTemplate {}).1).2 with
      | some e2 => simp [ha, h1, h2] at h
      | none =>
        simp only [ha, h1, h2] at h
        cases h
        exact ⟨rfl, rfl, rfl, rfl⟩

theorem mem_volume_names_of_mount (unmarshal : Unmarshal) (ro : RangeOrder)
    (i : initializer) (pod : Pod) (env : GoMap String) (hel : i.eligible pod)
    (hs : i.serializer (i.filteredPod pod) = Except.ok env) (k : String)
    (hk : k ∈ mountNames [i.parsedInit unmarshal, i.parsedRefresh unmarshal]) :
    k ∈ (i.Update unmarshal ro pod).1.Spec.Volumes.map (fun v => v.Name) := by
  obtain ⟨added, h, -, hmem⟩ := Update_ok_pod unmarshal ro i pod env hel hs
  rw [h]
  show k ∈ (pod.Spec.Volumes ++ added.map emptyDirVolume).map (fun v => v.Name)
  rw [List.map_append, List.mem_append]
  by_cases hex : k ∈ pod.Spec.Volumes.map (fun v => v.Name)
  · exact Or.inl hex
  · exact Or.inr (List.mem_map.2
      ⟨emptyDirVolume k, List.mem_map.2 ⟨k, (hmem k).2 ⟨hk, hex⟩, rfl⟩, rfl⟩)

/-! ## The claims -/

/-- C1: when the trigger annotation of the initializer is not empty and the pod has no
annotation map, or its map does not bind the trigger to exactly `"true"`, `Update` returns
the nil error and the pod keeps its init containers, containers and volumes. -/
theorem Update_skips_untriggered_pod (unmarshal : Unmarshal) (ro : RangeOrder)
    (i : initializer) (pod : Pod)
    (htrigger : i.config.AnnotationTrigger ≠ "")
    (hann : ∀ m, pod.Annotations = some m →
      (i.config.AnnotationTrigger, "true") ∉ m.entries) :
    (i.Update unmarshal ro pod).2 = none ∧
    (i.Update unmarshal ro pod).1.Spec.InitContainers = pod.Spec.InitContainers ∧
    (i.Update unmarshal ro pod).1.Spec.Containers = pod.Spec.Containers ∧
    (i.Update unmarshal ro pod).1.Spec.Volumes = pod.Spec.Volumes := by
  have hne : ¬ i.eligible pod := by
    rintro (h | h)
    · exact htrigger h
    · unfold Pod.annotation at h
      cases hm : pod.Annotations with
      | none => simp [hm] at h
      | some m =>
        simp only [hm] at h
        have := GoMap.mem_of_get_ne "" m i.config.AnnotationTrigger (by rw [h]; decide)
        rw [h] at this
        exact hann m hm this
  rw [Update_of_not_eligible unmarshal ro i pod hne]
  exact ⟨rfl, rfl, rfl, rfl⟩

/-- The statement of C1 on the sample pod whose trigger annotation is `"false"`. -/
theorem Update_skips_untriggered_pod_witness :
    (sampleConfig.AnnotationTrigger ≠ "" ∧
      ∀ m, untriggeredPod.Annotations = some m →
        (sampleConfig.AnnotationTrigger, "true") ∉ m.entries) ∧
    ((initializer.mk sampleConfig sampleSerializer).Update sampleUnmarshal
        RangeOrder.stored untriggeredPod).2 = none ∧
    ((initializer.mk sampleConfig sampleSerializer).Update sampleUnmarshal
        RangeOrder.stored untriggeredPod).1.Spec.InitContainers
      = untriggeredPod.Spec.InitContainers ∧
    ((initializer.mk sampleConfig sampleSerializer).Update sampleUnmarshal
        RangeOrder.stored untriggeredPod).1.Spec.Containers
      = untriggeredPod.Spec.Containers ∧
    ((initializer.mk sampleConfig sampleSerializer).Update sampleUnmarshal
        RangeOrder.stored untriggeredPod).1.Spec.Volumes
      = untriggeredPod.Spec.Volumes :=
  have h1 : sampleConfig.AnnotationTrigger ≠ "" := by decide
  have h2 : ∀ m, untriggeredPod.Annotations = some m →
      (sampleConfig.AnnotationTrigger, "true") ∉ m.entries := by
    intro m hm
    have : m = ⟨[("athenz/inject", "false")], by decide⟩ := by
      simp only [untriggeredPod, Option.some.injEq] at hm
      exact hm.symm
    subst this
    decide
  ⟨⟨h1, h2⟩, Update_skips_untriggered_pod sampleUnmarshal RangeOrder.stored
    (initializer.mk sampleConfig sampleSerializer) untriggeredPod h1 h2⟩

/-- C2: for an eligible pod and a serializer that succeeds with `env`, after `Update` the
init containers are the parsed init template with the serializer's entries appended to its
env, followed by `filterContainers` of the original init containers; the containers are the
parsed refresh template with the same entries appended, followed by `filterContainers` of
the original containers. What follows the injected container is an order-preserving part
of the original list; it is the whole original list; and every original container that the
filter as worded does not remove is in it, in the original relative order. -/
theorem Update_injects_containers_first (unmarshal : Unmarshal) (ro : RangeOrder)
    (i : initializer) (pod : Pod) (env : GoMap String) (hel : i.eligible pod)
    (hs : i.serializer (i.filteredPod pod) = Except.ok env) :
    (i.Update unmarshal ro pod).1.Spec.InitContainers =
      { i.parsedInit unmarshal with
          Env := (i.parsedInit unmarshal).Env ++ (ro.order env.entries).map envEntry } ::
        filterContainers i.config.RemoveImages pod.Spec.InitContainers ∧
    (i.Update unmarshal ro pod).1.Spec.Containers =
      { i.parsedRefresh unmarshal with
          Env := (i.parsedRefresh unmarshal).Env ++ (ro.order env.entries).map envEntry } ::
        filterContainers i.config.RemoveImages pod.Spec.Containers ∧
    (filterContainers i.config.RemoveImages pod.Spec.InitContainers).Sublist
      pod.Spec.InitContainers ∧
    (filterContainers i.config.RemoveImages pod.Spec.Containers).Sublist
      pod.Spec.Containers ∧
    (i.Update unmarshal ro pod).1.Spec.InitContainers.tail = pod.Spec.InitContainers ∧
    (i.Update unmarshal ro pod).1.Spec.Containers.tail = pod.Spec.Containers ∧
    (filterContainersSpec i.config.RemoveImages pod.Spec.InitContainers).Sublist
      (i.Update unmarshal ro pod).1.Spec.InitContainers.tail ∧
    (filterContainersSpec i.config.RemoveImages pod.Spec.Containers).Sublist
      (i.Update unmarshal ro pod).1.Spec.Containers.tail := by
  obtain ⟨added, h, -, -⟩ := Update_ok_pod unmarshal ro i pod env hel hs
  have hi := filterContainers_eq i.config.RemoveImages pod.Spec.InitContainers
  have hc := filterContainers_eq i.config.RemoveImages pod.Spec.Containers
  have ti : (i.Update unmarshal ro pod).1.Spec.InitContainers.tail
      = pod.Spec.InitContainers := by
    rw [h]
    exact hi
  have tc : (i.Update unmarshal ro pod).1.Spec.Containers.tail = pod.Spec.Containers := by
    rw [h]
    exact hc
  refine ⟨by rw [h]; rfl, by rw [h]; rfl, ?_, ?_, ti, tc, ?_, ?_⟩
  · rw [hi]
  · rw [hc]
  · rw [ti]
    exact List.filter_sublist pod.Spec.InitContainers
  · rw [tc]
    exact List.filter_sublist pod.Spec.Containers

/-- C4: for an eligible pod and a serializer that succeeds, the volumes after `Update` are
the original volumes followed by new ones; the new ones have pairwise distinct names, which
are exactly the volume-mount names of the two injected containers that name no original
volume; each new volume has an `EmptyDir` source and nothing else; every original volume
is found at its original position. -/
theorem Update_appends_missing_volumes (unmarshal : Unmarshal) (ro : RangeOrder)
    (i : initializer) (pod : Pod) (env : GoMap String) (hel : i.eligible pod)
    (hs : i.serializer (i.filteredPod pod) = Except.ok env) :
    ∃ added : List Volume,
      (i.Update unmarshal ro pod).1.Spec.Volumes = pod.Spec.Volumes ++ added ∧
      (added.map (fun v => v.Name)).Nodup ∧
      (∀ k, k ∈ added.map (fun v => v.Name) ↔
        k ∈ mountNames
            [i.injectedInit unmarshal ro env, i.injectedRefresh unmarshal ro env] ∧
        k ∉ pod.Spec.Volumes.map (fun v => v.Name)) ∧
      (∀ v ∈ added, v.VolumeSource = { EmptyDir := some {}, Other := none }) ∧
      ∀ (n : Nat) (v : Volume), pod.Spec.Volumes[n]? = some v →
        (i.Update unmarshal ro pod).1.Spec.Volumes[n]? = some v := by
  obtain ⟨added, h, hnd, hmem⟩ := Update_ok_pod unmarshal ro i pod env hel hs
  have hnames : (added.map emptyDirVolume).map (fun v => v.Name) = added := by
    simp [List.map_map, Function.comp_def, emptyDirVolume]
  refine ⟨added.map emptyDirVolume, by rw [h], ?_, ?_, ?_, ?_⟩
  · rw [hnames]; exact hnd
  · intro k; rw [hnames]; exact hmem k
  · intro v hv
    obtain ⟨k, -, rfl⟩ := List.mem_map.1 hv
    rfl
  · intro n v hn
    rw [h]
    show (pod.Spec.Volumes ++ added.map emptyDirVolume)[n]? = some v
    have hlt : n < pod.Spec.Volumes.length := by
      by_contra hge
      rw [List.getElem?_eq_none (Nat.le_of_not_lt hge)] at hn
      exact absurd hn (by simp)
    rw [List.getElem?_append_left hlt]
    exact hn

/-- C5: for an eligible pod and a serializer that succeeds, after `Update` the first init
container and the first container (the injected ones) mount only volumes whose names are
names of volumes of the pod. -/
theorem Update_injected_mounts_have_volumes (unmarshal : Unmarshal) (ro : RangeOrder)
    (i : initializer) (pod : Pod) (env : GoMap String) (hel : i.eligible pod)
    (hs : i.serializer (i.filteredPod pod) = Except.ok env) :
    (i.Update unmarshal ro pod).1.Spec.InitContainers.head? =
      some (i.injectedInit unmarshal ro env) ∧
    (i.Update unmarshal ro pod).1.Spec.Containers.head? =
      some (i.injectedRefresh unmarshal ro env) ∧
    (∀ vm ∈ (i.injectedInit unmarshal ro env).VolumeMounts,
      vm.Name ∈ (i.Update unmarshal ro pod).1.Spec.Volumes.map (fun v => v.Name)) ∧
    (∀ vm ∈ (i.injectedRefresh unmarshal ro env).VolumeMounts,
      vm.Name ∈ (i.Update unmarshal ro pod).1.Spec.Volumes.map (fun v => v.Name)) := by
  obtain ⟨added, h, -, hmem⟩ := Update_ok_pod unmarshal ro i pod env hel hs
  have key : ∀ k, k ∈ mountNames
        [i.injectedInit unmarshal ro env, i.injectedRefresh unmarshal ro env] →
      k ∈ (i.Update unmarshal ro pod).1.Spec.Volumes.map (fun v => v.Name) := by
    intro k hk
    rw [h]
    show k ∈ (pod.Spec.Volumes ++ added.map emptyDirVolume).map (fun v => v.Name)
    rw [List.map_append, List.mem_append]
    by_cases hex : k ∈ pod.Spec.Volumes.map (fun v => v.Name)
    · exact Or.inl hex
    · right
      have := (hmem k).2 ⟨hk, hex⟩
      exact List.mem_map.2 ⟨emptyDirVolume k, List.mem_map.2 ⟨k, this, rfl⟩, rfl⟩
  refine ⟨by rw [h]; rfl, by rw [h]; rfl, fun vm hvm => key _ ?_, fun vm hvm => key _ ?_⟩
  · simp only [mountNames, List.flatMap_cons, List.flatMap_nil, List.mem_append, List.mem_map]
    exact Or.inl ⟨vm, hvm, rfl⟩
  · simp only [mountNames, List.flatMap_cons, List.flatMap_nil, List.mem_append, List.mem_map]
    exact Or.inr (Or.inl ⟨vm, hvm, rfl⟩)

/-- C6: `Update` returns the error `err` exactly when the pod is eligible and the
serializer, on the pod it is handed, returns the error `err`. -/
theorem Update_error_iff (unmarshal : Unmarshal) (ro : RangeOrder) (i : initializer)
    (pod : Pod) (err : GoError) :
    (i.Update unmarshal ro pod).2 = some err ↔
      (i.eligible pod ∧ i.serializer (i.filteredPod pod) = Except.error err) := by
  by_cases hel : i.eligible pod
  · cases hs : i.serializer (i.filteredPod pod) with
    | error e =>
      rw [Update_of_error unmarshal ro i pod e hel hs]
      simp [hel]
    | ok env =>
      rw [Update_of_ok unmarshal ro i pod env hel hs]
      simp
  · rw [Update_of_not_eligible unmarshal ro i pod hel]
    simp [hel]

/-- C7: for an eligible pod on which the serializer fails, the pod after `Update` has the
init containers, containers and volumes it had before, whatever `RemoveImages` holds. -/
theorem Update_error_keeps_pod (unmarshal : Unmarshal) (ro : RangeOrder) (i : initializer)
    (pod : Pod) (err : GoError) (hel : i.eligible pod)
    (hs : i.serializer (i.filteredPod pod) = Except.error err) :
    (i.Update unmarshal ro pod).1.Spec.InitContainers = pod.Spec.InitContainers ∧
    (i.Update unmarshal ro pod).1.Spec.Containers = pod.Spec.Containers ∧
    (i.Update unmarshal ro pod).1.Spec.Volumes = pod.Spec.Volumes := by
  rw [Update_of_error unmarshal ro i pod err hel hs]
  exact ⟨filterContainers_eq i.config.RemoveImages pod.Spec.InitContainers,
    filterContainers_eq i.config.RemoveImages pod.Spec.Containers, rfl⟩

/-- C8: for an eligible pod and a serializer that succeeds with `env`, there is one list of
appended entries, holding one `EnvVar` with name `k` and value `v` for each entry of `env`
and as many entries as `env` has keys, such that the env of the injected init container is
the env of the parsed init template followed by that list, and the env of the injected
refresh container is the env of the parsed refresh template followed by the same list. -/
theorem Update_appends_env_entries (unmarshal : Unmarshal) (ro : RangeOrder)
    (i : initializer) (pod : Pod) (env : GoMap String) (hel : i.eligible pod)
    (hs : i.serializer (i.filteredPod pod) = Except.ok env) :
    ∃ appended : List EnvVar,
      appended.Perm (env.entries.map (fun kv => { Name := kv.1, Value := kv.2 })) ∧
      appended.length = env.keys.length ∧
      (i.Update unmarshal ro pod).1.Spec.InitContainers.head?.map (fun c => c.Env) =
        some ((i.parsedInit unmarshal).Env ++ appended) ∧
      (i.Update unmarshal ro pod).1.Spec.Containers.head?.map (fun c => c.Env) =
        some ((i.parsedRefresh unmarshal).Env ++ appended) := by
  obtain ⟨added, h, -, -⟩ := Update_ok_pod unmarshal ro i pod env hel hs
  refine ⟨injectedEnv ro env, ?_, ?_, by rw [h]; rfl, by rw [h]; rfl⟩
  · exact (ro.perm env.entries).map envEntry
  · simp only [injectedEnv, GoMap.keys, List.length_map]
    exact (ro.perm env.entries).length_eq

/-- The statement of C2 on the sample pod, the map visited backwards. -/
theorem Update_injects_containers_first_witness :
    sampleInitializer.eligible samplePod ∧
    sampleInitializer.serializer (sampleInitializer.filteredPod samplePod)
      = Except.ok sampleEnv ∧
    ((sampleInitializer.Update sampleUnmarshal RangeOrder.backwards samplePod).1.Spec.InitContainers =
      { sampleInitializer.parsedInit sampleUnmarshal with
          Env := (sampleInitializer.parsedInit sampleUnmarshal).Env ++
            (RangeOrder.backwards.order sampleEnv.entries).map envEntry } ::
        filterContainers sampleInitializer.config.RemoveImages samplePod.Spec.InitContainers ∧
    (sampleInitializer.Update sampleUnmarshal RangeOrder.backwards samplePod).1.Spec.Containers =
      { sampleInitializer.parsedRefresh sampleUnmarshal with
          Env := (sampleInitializer.parsedRefresh sampleUnmarshal).Env ++
            (RangeOrder.backwards.order sampleEnv.entries).map envEntry } ::
        filterContainers sampleInitializer.config.RemoveImages samplePod.Spec.Containers ∧
    (filterContainers sampleInitializer.config.RemoveImages
      samplePod.Spec.InitContainers).Sublist samplePod.Spec.InitContainers ∧
    (filterContainers sampleInitializer.config.RemoveImages
      samplePod.Spec.Containers).Sublist samplePod.Spec.Containers ∧
    (sampleInitializer.Update sampleUnmarshal RangeOrder.backwards
        samplePod).1.Spec.InitContainers.tail = samplePod.Spec.InitContainers ∧
    (sampleInitializer.Update sampleUnmarshal RangeOrder.backwards
        samplePod).1.Spec.Containers.tail = samplePod.Spec.Containers ∧
    (filterContainersSpec sampleInitializer.config.RemoveImages
      samplePod.Spec.InitContainers).Sublist
      (sampleInitializer.Update sampleUnmarshal RangeOrder.backwards
        samplePod).1.Spec.InitContainers.tail ∧
    (filterContainersSpec sampleInitializer.config.RemoveImages
      samplePod.Spec.Containers).Sublist
      (sampleInitializer.Update sampleUnmarshal RangeOrder.backwards
        samplePod).1.Spec.Containers.tail) :=
  ⟨by decide, rfl,
    Update_injects_containers_first sampleUnmarshal RangeOrder.backwards sampleInitializer
      samplePod sampleEnv (by decide) rfl⟩

/-- C3: the code does not filter. With `RemoveImages = ["legacy/sia"]` and the init
containers with images `legacy/sia:1.2` and `app:1.0`, the image `legacy/sia:1.2` without
its version is the entry `legacy/sia`, the filter as worded keeps only `app:1.0`, and
`filterContainers` keeps both containers; so does `Update` behind the injected one. -/
theorem filterContainers_keeps_removed_image :
    imageWithoutVersion "legacy/sia:1.2" = "legacy/sia" ∧
    filterContainersSpec ["legacy/sia"]
        [{ Name := "old-sia", Image := "legacy/sia:1.2" }, { Name := "setup", Image := "app:1.0" }]
      = [{ Name := "setup", Image := "app:1.0" }] ∧
    filterContainers ["legacy/sia"]
        [{ Name := "old-sia", Image := "legacy/sia:1.2" }, { Name := "setup", Image := "app:1.0" }]
      = [{ Name := "old-sia", Image := "legacy/sia:1.2" }, { Name := "setup", Image := "app:1.0" }] ∧
    (sampleInitializer.Update sampleUnmarshal RangeOrder.stored samplePod).1.Spec.InitContainers.map
        (fun c => c.Image)
      = ["sia:1.0", "legacy/sia:1.2", "app:1.0"] := by
  decide

/-- The statement of C4 on the sample pod. -/
theorem Update_appends_missing_volumes_witness :
    sampleInitializer.eligible samplePod ∧
    sampleInitializer.serializer (sampleInitializer.filteredPod samplePod)
      = Except.ok sampleEnv ∧
    ∃ added : List Volume,
      (sampleInitializer.Update sampleUnmarshal RangeOrder.stored samplePod).1.Spec.Volumes
        = samplePod.Spec.Volumes ++ added ∧
      (added.map (fun v => v.Name)).Nodup ∧
      (∀ k, k ∈ added.map (fun v => v.Name) ↔
        k ∈ mountNames
            [sampleInitializer.injectedInit sampleUnmarshal RangeOrder.stored sampleEnv,
             sampleInitializer.injectedRefresh sampleUnmarshal RangeOrder.stored sampleEnv] ∧
        k ∉ samplePod.Spec.Volumes.map (fun v => v.Name)) ∧
      (∀ v ∈ added, v.VolumeSource = { EmptyDir := some {}, Other := none }) ∧
      ∀ (n : Nat) (v : Volume), samplePod.Spec.Volumes[n]? = some v →
        (sampleInitializer.Update sampleUnmarshal RangeOrder.stored samplePod).1.Spec.Volumes[n]?
          = some v :=
  ⟨by decide, rfl,
    Update_appends_missing_volumes sampleUnmarshal RangeOrder.stored sampleInitializer
      samplePod sampleEnv (by decide) rfl⟩

/-- The statement of C5 on the sample pod. -/
theorem Update_injected_mounts_have_volumes_witness :
    sampleInitializer.eligible samplePod ∧
    sampleInitializer.serializer (sampleInitializer.filteredPod samplePod)
      = Except.ok sampleEnv ∧
    (sampleInitializer.Update sampleUnmarshal RangeOrder.stored samplePod).1.Spec.InitContainers.head? =
      some (sampleInitializer.injectedInit sampleUnmarshal RangeOrder.stored sampleEnv) ∧
    (sampleInitializer.Update sampleUnmarshal RangeOrder.stored samplePod).1.Spec.Containers.head? =
      some (sampleInitializer.injectedRefresh sampleUnmarshal RangeOrder.stored sampleEnv) ∧
    (∀ vm ∈ (sampleInitializer.injectedInit sampleUnmarshal RangeOrder.stored
          sampleEnv).VolumeMounts,
      vm.Name ∈ (sampleInitializer.Update sampleUnmarshal RangeOrder.stored
          samplePod).1.Spec.Volumes.map (fun v => v.Name)) ∧
    (∀ vm ∈ (sampleInitializer.injectedRefresh sampleUnmarshal RangeOrder.stored
          sampleEnv).VolumeMounts,
      vm.Name ∈ (sampleInitializer.Update sampleUnmarshal RangeOrder.stored
          samplePod).1.Spec.Volumes.map (fun v => v.Name)) :=
  ⟨by decide, rfl,
    Update_injected_mounts_have_volumes sampleUnmarshal RangeOrder.stored sampleInitializer
      samplePod sampleEnv (by decide) rfl⟩

/-- The statement of C7 on the sample pod, whose first init container has an image of
`RemoveImages`, with the serializer that fails. -/
theorem Update_error_keeps_pod_witness :
    failingInitializer.eligible samplePod ∧
    failingInitializer.serializer (failingInitializer.filteredPod samplePod)
      = Except.error (GoError.other "no identity for the pod") ∧
    (failingInitializer.Update sampleUnmarshal RangeOrder.stored samplePod).1.Spec.InitContainers
      = samplePod.Spec.InitContainers ∧
    (failingInitializer.Update sampleUnmarshal RangeOrder.stored samplePod).1.Spec.Containers
      = samplePod.Spec.Containers ∧
    (failingInitializer.Update sampleUnmarshal RangeOrder.stored samplePod).1.Spec.Volumes
      = samplePod.Spec.Volumes :=
  ⟨by decide, rfl,
    Update_error_keeps_pod sampleUnmarshal RangeOrder.stored failingInitializer samplePod
      (GoError.other "no identity for the pod") (by decide) rfl⟩

/-- The statement of C8 on the sample pod, the map visited backwards. -/
theorem Update_appends_env_entries_witness :
    sampleInitializer.eligible samplePod ∧
    sampleInitializer.serializer (sampleInitializer.filteredPod samplePod)
      = Except.ok sampleEnv ∧
    ∃ appended : List EnvVar,
      appended.Perm (sampleEnv.entries.map (fun kv => { Name := kv.1, Value := kv.2 })) ∧
      appended.length = sampleEnv.keys.length ∧
      (sampleInitializer.Update sampleUnmarshal RangeOrder.backwards
          samplePod).1.Spec.InitContainers.head?.map (fun c => c.Env) =
        some ((sampleInitializer.parsedInit sampleUnmarshal).Env ++ appended) ∧
      (sampleInitializer.Update sampleUnmarshal RangeOrder.backwards
          samplePod).1.Spec.Containers.head?.map (fun c => c.Env) =
        some ((sampleInitializer.parsedRefresh sampleUnmarshal).Env ++ appended) :=
  ⟨by decide, rfl,
    Update_appends_env_entries sampleUnmarshal RangeOrder.backwards sampleInitializer
      samplePod sampleEnv (by decide) rfl⟩

/-- C9 as stated fails: the sample configuration is accepted by `newInitializer`, the
sample pod is eligible, the serializer succeeds with a map that has the key `MODE`, and
`MODE` is the name of two env entries of the injected init container, the first of them
from the init template. -/
theorem env_key_twice_in_injected_init :
    newInitializer sampleUnmarshal sampleConfig collidingSerializer
      = Except.ok ⟨sampleConfig, collidingSerializer⟩ ∧
    (initializer.mk sampleConfig collidingSerializer).eligible samplePod ∧
    collidingSerializer ((initializer.mk sampleConfig collidingSerializer).filteredPod samplePod)
      = Except.ok collidingEnv ∧
    "MODE" ∈ collidingEnv.keys ∧
    ((initializer.mk sampleConfig collidingSerializer).Update sampleUnmarshal
        RangeOrder.stored samplePod).1.Spec.InitContainers.head?.map (envNameCount "MODE")
      = some 2 := by
  refine ⟨rfl, ?_, rfl, ?_, ?_⟩ <;> decide

/-- C9, amended: for a configuration accepted by `newInitializer`, an eligible pod and a
serializer that succeeds with `env`, each key of `env` is the name of exactly one of the
appended entries: in the injected init container it names one entry more than in the env
of the parsed init template, and in the injected refresh container one entry more than in
the env of the parsed refresh template; so exactly one where the template has none of that
name. -/
theorem env_key_count_in_injected (unmarshal : Unmarshal) (ro : RangeOrder)
    (config : initConfig) (serializer : Serializer) (i : initializer) (pod : Pod)
    (env : GoMap String) (k : String)
    (_hvalid : newInitializer unmarshal config serializer = Except.ok i)
    (hel : i.eligible pod)
    (hs : i.serializer (i.filteredPod pod) = Except.ok env) (hk : k ∈ env.keys) :
    (i.Update unmarshal ro pod).1.Spec.InitContainers.head?.map (envNameCount k)
      = some (envNameCount k (i.parsedInit unmarshal) + 1) ∧
    (i.Update unmarshal ro pod).1.Spec.Containers.head?.map (envNameCount k)
      = some (envNameCount k (i.parsedRefresh unmarshal) + 1) ∧
    (envNameCount k (i.parsedInit unmarshal) = 0 →
      (i.Update unmarshal ro pod).1.Spec.InitContainers.head?.map (envNameCount k)
        = some 1) ∧
    (envNameCount k (i.parsedRefresh unmarshal) = 0 →
      (i.Update unmarshal ro pod).1.Spec.Containers.head?.map (envNameCount k)
        = some 1) := by
  obtain ⟨added, h, -, -⟩ := Update_ok_pod unmarshal ro i pod env hel hs
  have hnames : (injectedEnv ro env).map (fun e => e.Name)
      = (ro.order env.entries).map Prod.fst := by
    simp [injectedEnv, List.map_map, Function.comp_def, envEntry]
  have hperm : ((ro.order env.entries).map Prod.fst).Perm env.keys :=
    (ro.perm env.entries).map Prod.fst
  have hone : ((injectedEnv ro env).map (fun e => e.Name)).count k = 1 := by
    rw [hnames]
    exact List.count_eq_one_of_mem (hperm.nodup_iff.2 env.nodup) (hperm.mem_iff.2 hk)
  have hi : (i.Update unmarshal ro pod).1.Spec.InitContainers.head?.map (envNameCount k)
      = some (envNameCount k (i.parsedInit unmarshal) + 1) := by
    rw [h]
    show some (envNameCount k (i.injectedInit unmarshal ro env)) = _
    simp only [envNameCount, initializer.injectedInit, List.map_append, List.count_append, hone]
  have hr : (i.Update unmarshal ro pod).1.Spec.Containers.head?.map (envNameCount k)
      = some (envNameCount k (i.parsedRefresh unmarshal) + 1) := by
    rw [h]
    show some (envNameCount k (i.injectedRefresh unmarshal ro env)) = _
    simp only [envNameCount, initializer.injectedRefresh, List.map_append, List.count_append,
      hone]
  refine ⟨hi, hr, fun h0 => ?_, fun h0 => ?_⟩
  · rw [hi, h0]
  · rw [hr, h0]

/-- The amended C9 on the sample pod: the key `ATHENZ_DOMAIN`, which no template uses,
names exactly one env entry of each injected container. -/
theorem env_key_count_in_injected_witness :
    newInitializer sampleUnmarshal sampleConfig sampleSerializer
      = Except.ok sampleInitializer ∧
    sampleInitializer.eligible samplePod ∧
    sampleInitializer.serializer (sampleInitializer.filteredPod samplePod)
      = Except.ok sampleEnv ∧
    "ATHENZ_DOMAIN" ∈ sampleEnv.keys ∧
    (sampleInitializer.Update sampleUnmarshal RangeOrder.stored
        samplePod).1.Spec.InitContainers.head?.map (envNameCount "ATHENZ_DOMAIN")
      = some 1 ∧
    (sampleInitializer.Update sampleUnmarshal RangeOrder.stored
        samplePod).1.Spec.Containers.head?.map (envNameCount "ATHENZ_DOMAIN")
      = some 1 :=
  ⟨rfl, by decide, rfl, by decide,
    ((env_key_count_in_injected sampleUnmarshal RangeOrder.stored sampleConfig
      sampleSerializer sampleInitializer samplePod sampleEnv "ATHENZ_DOMAIN" rfl (by decide)
      rfl (by decide)).2.2.1 (by decide)),
    ((env_key_count_in_injected sampleUnmarshal RangeOrder.stored sampleConfig
      sampleSerializer sampleInitializer samplePod sampleEnv "ATHENZ_DOMAIN" rfl (by decide)
      rfl (by decide)).2.2.2 (by decide))⟩

/-- C10: `assertValid` returns an error exactly when one of `Name`, `InitTemplate`,
`RefreshTemplate` is the empty string; the error then is the missing-fields error of
`initConfig`, and its field list holds each of the three names exactly when that field is
empty, and nothing else. -/
theorem assertValid_names_missing_fields (ic : initConfig) :
    (ic.assertValid.isSome ↔ (ic.Name = "" ∨ ic.InitTemplate = "" ∨ ic.RefreshTemplate = "")) ∧
    ∀ err, ic.assertValid = some err →
      ∃ fields, err = GoError.missingFields "initConfig" fields ∧
        ("Name" ∈ fields ↔ ic.Name = "") ∧
        ("InitTemplate" ∈ fields ↔ ic.InitTemplate = "") ∧
        ("RefreshTemplate" ∈ fields ↔ ic.RefreshTemplate = "") ∧
        ∀ f ∈ fields, f = "Name" ∨ f = "InitTemplate" ∨ f = "RefreshTemplate" := by
  by_cases h1 : ic.Name = "" <;> by_cases h2 : ic.InitTemplate = "" <;>
    by_cases h3 : ic.RefreshTemplate = "" <;>
    simp [initConfig.assertValid, CheckFields, h1, h2, h3]

/-- C11: `newInitializer` returns an initializer exactly when `Name`, `InitTemplate` and
`RefreshTemplate` are not empty, the init template parses (into a zero-valued container)
and the refresh template parses (into the container that the init template has filled);
the initializer then holds the configuration, and its `Name()` is `config.Name`.
Otherwise the error is: the error of `assertValid` when that fails; else, when the init
template does not parse, the parse error wrapped with `bad init template %q` of the raw
init template, whatever the refresh template is; else the parse error of the refresh
template wrapped with `bad refresh template %q` of the raw refresh template. -/
theorem newInitializer_steps (unmarshal : Unmarshal) (config : initConfig)
    (serializer : Serializer) :
    ((∃ i, newInitializer unmarshal config serializer = Except.ok i) ↔
      ((config.Name ≠ "" ∧ config.InitTemplate ≠ "" ∧ config.RefreshTemplate ≠ "") ∧
        (unmarshal config.InitTemplate {}).2 = none ∧
        (unmarshal config.RefreshTemplate (unmarshal config.InitTemplate {}).1).2 = none)) ∧
    (∀ i, newInitializer unmarshal config serializer = Except.ok i →
      i.config = config ∧ i.Name = config.Name) ∧
    (∀ err, config.assertValid = some err →
      newInitializer unmarshal config serializer = Except.error err) ∧
    (∀ err, config.assertValid = none →
      (unmarshal config.InitTemplate {}).2 = some err →
      newInitializer unmarshal config serializer =
        Except.error (GoError.wrap err ⟨"bad init template %q", [config.InitTemplate]⟩)) ∧
    (∀ err, config.assertValid = none →
      (unmarshal config.InitTemplate {}).2 = none →
      (unmarshal config.RefreshTemplate (unmarshal config.InitTemplate {}).1).2 = some err →
      newInitializer unmarshal config serializer =
        Except.error
          (GoError.wrap err ⟨"bad refresh template %q", [config.RefreshTemplate]⟩)) := by
  have hv := assertValid_eq_none_iff config
  cases ha : config.assertValid with
  | some e0 =>
    have hnv : ¬ (config.Name ≠ "" ∧ config.InitTemplate ≠ "" ∧ config.RefreshTemplate ≠ "") :=
      fun h => by rw [hv.2 h] at ha; exact absurd ha (by simp)
    simp [newInitializer, ha, hnv]
  | none =>
    have hval := hv.1 ha
    cases h1 : (unmarshal config.InitTemplate {}).2 with
    | some e1 => simp [newInitializer, ha, h1, hval]
    | none =>
      cases h2 : (unmarshal config.RefreshTemplate (unmarshal config.InitTemplate {}).1).2 with
      | some e2 => simp [newInitializer, ha, h1, h2, hval]
      | none =>
        simp only [newInitializer, ha, h1, h2]
        refine ⟨⟨fun _ => ⟨hval, trivial, trivial⟩, fun _ => ⟨_, rfl⟩⟩, ?_, ?_, ?_, ?_⟩
        · intro i hi
          cases hi
          exact ⟨rfl, rfl⟩
        · intro err herr; exact absurd herr (by simp)
        · intro err _ herr; exact absurd herr (by simp)
        · intro err _ _ herr; exact absurd herr (by simp)

/-- C12: in each outcome of `Update` (skipped, failed, successful) the annotations of the
pod and everything of the pod outside its init containers, containers and volumes are as
before the call: the pod after the call is the pod before the call with those three fields
replaced. `Update` gives back no initializer: it never assigns to its receiver. -/
theorem Update_changes_three_fields_only (unmarshal : Unmarshal) (ro : RangeOrder)
    (i : initializer) (pod : Pod) :
    (i.Update unmarshal ro pod).1.Annotations = pod.Annotations ∧
    (i.Update unmarshal ro pod).1.Other = pod.Other ∧
    (i.Update unmarshal ro pod).1.Spec.Other = pod.Spec.Other ∧
    (i.Update unmarshal ro pod).1 =
      { pod with Spec := { pod.Spec with
          InitContainers := (i.Update unmarshal ro pod).1.Spec.InitContainers,
          Containers := (i.Update unmarshal ro pod).1.Spec.Containers,
          Volumes := (i.Update unmarshal ro pod).1.Spec.Volumes } } := by
  obtain ⟨h1, h2, h3⟩ := Update_outside unmarshal ro i pod
  refine ⟨h1, h2, h3, ?_⟩
  generalize (i.Update unmarshal ro pod).1 = post at h1 h2 h3
  obtain ⟨a, ⟨v, ic, c, so⟩, o⟩ := post
  simp only at h1 h2 h3
  subst h1 h2 h3
  rfl

/-- C13: the code does not look at the dots of the name. The sample configuration with the
name `sia`, which has no dot, passes `assertValid`, and `newInitializer` returns an
initializer for it. -/
theorem newInitializer_accepts_name_without_dots :
    dots shortNameConfig.Name = 0 ∧
    shortNameConfig.assertValid = none ∧
    newInitializer sampleUnmarshal shortNameConfig sampleSerializer
      = Except.ok ⟨shortNameConfig, sampleSerializer⟩ := by
  refine ⟨by decide, by decide, rfl⟩

/-- C14: `filterContainers` returns its input: for every list of containers and every
`RemoveImages`, the same containers in the same order. -/
theorem filterContainers_returns_input (removeImages : List String)
    (containers : List Container) :
    filterContainers removeImages containers = containers ∧
    (∀ c ∈ containers, imageWithoutVersion c.Image ∈ removeImages →
      c ∈ filterContainers removeImages containers) := by
  have h := filterContainers_eq removeImages containers
  refine ⟨h, fun c hc _ => ?_⟩
  rw [h]
  exact hc

/-- C15 as stated fails: the documents `{}` and `null` parse without error and set no
field. With them as templates `newInitializer` returns an initializer, both
deserializations of `Update` succeed, and for an eligible pod and a serializer that
succeeds with no entry `Update` injects the zero-valued container into both lists. -/
theorem Update_injects_zero_container :
    newInitializer lenientUnmarshal emptyDocConfig emptySerializer
      = Except.ok ⟨emptyDocConfig, emptySerializer⟩ ∧
    (initializer.mk emptyDocConfig emptySerializer).eligible samplePod ∧
    emptySerializer ((initializer.mk emptyDocConfig emptySerializer).filteredPod samplePod)
      = Except.ok GoMap.empty ∧
    (lenientUnmarshal emptyDocConfig.InitTemplate {}).2 = none ∧
    (lenientUnmarshal emptyDocConfig.RefreshTemplate {}).2 = none ∧
    ((initializer.mk emptyDocConfig emptySerializer).Update lenientUnmarshal
        RangeOrder.stored samplePod).1.Spec.InitContainers.head? = some {} ∧
    ((initializer.mk emptyDocConfig emptySerializer).Update lenientUnmarshal
        RangeOrder.stored samplePod).1.Spec.Containers.head? = some {} := by
  refine ⟨rfl, by decide, rfl, by decide, by decide, by decide, by decide⟩

/-- C15, amended: for an initializer that `newInitializer` has returned, the
deserialization of the init template in `Update` (line 121) succeeds; the refresh template
has been parsed without error into the container that the init template had filled, and
its deserialization in `Update` (line 122, into a zero-valued container) succeeds when a
failure of `yaml.Unmarshal` does not depend on the value the target holds; and for every
eligible pod and every successful serializer result the injected containers are those same
two parsed containers, whatever they hold, with the env entries appended. -/
theorem Update_templates_parse (unmarshal : Unmarshal) (config : initConfig)
    (serializer : Serializer) (i : initializer)
    (hnew : newInitializer unmarshal config serializer = Except.ok i) :
    (unmarshal i.config.InitTemplate {}).2 = none ∧
    (unmarshal i.config.RefreshTemplate (unmarshal i.config.InitTemplate {}).1).2 = none ∧
    (unmarshal.FailureByText → (unmarshal i.config.RefreshTemplate {}).2 = none) ∧
    ∀ (ro : RangeOrder) (pod : Pod) (env : GoMap String), i.eligible pod →
      i.serializer (i.filteredPod pod) = Except.ok env →
      (i.Update unmarshal ro pod).1.Spec.InitContainers.head? =
        some { (unmarshal i.config.InitTemplate {}).1 with
          Env := (unmarshal i.config.InitTemplate {}).1.Env ++ injectedEnv ro env } ∧
      (i.Update unmarshal ro pod).1.Spec.Containers.head? =
        some { (unmarshal i.config.RefreshTemplate {}).1 with
          Env := (unmarshal i.config.RefreshTemplate {}).1.Env ++ injectedEnv ro env } := by
  obtain ⟨hi, -, h1, h2⟩ := newInitializer_ok unmarshal config serializer i hnew
  subst hi
  refine ⟨h1, h2, fun hlib => hlib _ _ _ h2, fun ro pod env hel hs => ?_⟩
  obtain ⟨added, h, -, -⟩ := Update_ok_pod unmarshal ro _ pod env hel hs
  rw [h]
  exact ⟨rfl, rfl⟩

/-- The amended C15 on the sample configuration: both deserializations of `Update`
succeed, and the injected init container is the parsed sample template, which is not
zero-valued, with the two entries of the serializer appended. -/
theorem Update_templates_parse_witness :
    newInitializer sampleUnmarshal sampleConfig sampleSerializer
      = Except.ok sampleInitializer ∧
    sampleUnmarshal.FailureByText ∧
    (sampleUnmarshal sampleInitializer.config.InitTemplate {}).2 = none ∧
    (sampleUnmarshal sampleInitializer.config.RefreshTemplate {}).2 = none ∧
    (sampleInitializer.Update sampleUnmarshal RangeOrder.stored
        samplePod).1.Spec.InitContainers.head? =
      some { (sampleUnmarshal sampleInitializer.config.InitTemplate {}).1 with
        Env := (sampleUnmarshal sampleInitializer.config.InitTemplate {}).1.Env ++
          injectedEnv RangeOrder.stored sampleEnv } :=
  have hlib : sampleUnmarshal.FailureByText := by
    intro text c c' h
    unfold sampleUnmarshal at h ⊢
    split_ifs at h ⊢ <;> simp_all
  ⟨rfl, hlib,
    (Update_templates_parse sampleUnmarshal sampleConfig sampleSerializer sampleInitializer
      rfl).1,
    (Update_templates_parse sampleUnmarshal sampleConfig sampleSerializer sampleInitializer
      rfl).2.2.1 hlib,
    ((Update_templates_parse sampleUnmarshal sampleConfig sampleSerializer sampleInitializer
      rfl).2.2.2 RangeOrder.stored samplePod sampleEnv (by decide) rfl).1⟩

/-- C16 as stated fails: with nothing to remove and a pod that a first `Update` has already
mutated, the pod is eligible, the serializer succeeds, and the pod handed to the
serializer holds a container equal to the init container that this call injects, and one
equal to the refresh container that it injects. -/
theorem serializer_sees_injected_containers :
    plainInitializer.eligible mutatedPod ∧
    plainInitializer.serializer (plainInitializer.filteredPod mutatedPod)
      = Except.ok sampleEnv ∧
    plainInitializer.injectedInit sampleUnmarshal RangeOrder.stored sampleEnv ∈
      (plainInitializer.filteredPod mutatedPod).Spec.InitContainers ∧
    plainInitializer.injectedRefresh sampleUnmarshal RangeOrder.stored sampleEnv ∈
      (plainInitializer.filteredPod mutatedPod).Spec.Containers := by
  refine ⟨by decide, rfl, by decide, by decide⟩

/-- C16, amended: `Update` consults the serializer at one pod only, the original pod with
both container lists replaced by `filterContainers` of themselves (two serializers that
agree there give the same `Update`, and for an eligible pod an error of the serializer
there is the error of `Update`); the volumes of that pod are the original volumes; nothing
is prepended to its lists: each of its containers is a container of the original list, so
it holds an injected container only if the original list already held an equal one. -/
theorem serializer_sees_filtered_pod (unmarshal : Unmarshal) (ro : RangeOrder)
    (config : initConfig) (s s' : Serializer) (pod : Pod)
    (hel : (initializer.mk config s).eligible pod)
    (hsame : s ((initializer.mk config s).filteredPod pod) =
      s' ((initializer.mk config s).filteredPod pod)) :
    (initializer.mk config s).Update unmarshal ro pod =
      (initializer.mk config s').Update unmarshal ro pod ∧
    (∀ err, s ((initializer.mk config s).filteredPod pod) = Except.error err →
      ((initializer.mk config s).Update unmarshal ro pod).2 = some err) ∧
    ((initializer.mk config s).filteredPod pod).Spec.InitContainers =
      filterContainers config.RemoveImages pod.Spec.InitContainers ∧
    ((initializer.mk config s).filteredPod pod).Spec.Containers =
      filterContainers config.RemoveImages pod.Spec.Containers ∧
    ((initializer.mk config s).filteredPod pod).Spec.Volumes = pod.Spec.Volumes ∧
    (∀ c ∈ ((initializer.mk config s).filteredPod pod).Spec.InitContainers,
      c ∈ pod.Spec.InitContainers) ∧
    (∀ c ∈ ((initializer.mk config s).filteredPod pod).Spec.Containers,
      c ∈ pod.Spec.Containers) := by
  have hel' : (initializer.mk config s').eligible pod := hel
  refine ⟨?_, ?_, rfl, rfl, rfl, ?_, ?_⟩
  · cases hs : s ((initializer.mk config s).filteredPod pod) with
    | error e =>
      have hs' : s' ((initializer.mk config s').filteredPod pod) = Except.error e :=
        hsame.symm.trans hs
      rw [Update_of_error unmarshal ro ⟨config, s⟩ pod e hel hs,
        Update_of_error unmarshal ro ⟨config, s'⟩ pod e hel' hs']
      rfl
    | ok env =>
      have hs' : s' ((initializer.mk config s').filteredPod pod) = Except.ok env :=
        hsame.symm.trans hs
      rw [Update_of_ok unmarshal ro ⟨config, s⟩ pod env hel hs,
        Update_of_ok unmarshal ro ⟨config, s'⟩ pod env hel' hs']
      rfl
  · intro err herr
    rw [Update_of_error unmarshal ro ⟨config, s⟩ pod err hel herr]
  · intro c hc
    have h : c ∈ filterContainers config.RemoveImages pod.Spec.InitContainers := hc
    rw [filterContainers_eq] at h
    exact h
  · intro c hc
    have h : c ∈ filterContainers config.RemoveImages pod.Spec.Containers := hc
    rw [filterContainers_eq] at h
    exact h

/-- The amended C16 on the sample pod, for the sample serializer and the serializer that
gives the same map on pods with an annotation map and fails on the others. -/
theorem serializer_sees_filtered_pod_witness :
    (initializer.mk sampleConfig sampleSerializer).eligible samplePod ∧
    (initializer.mk sampleConfig sampleSerializer).Update sampleUnmarshal
        RangeOrder.stored samplePod =
      (initializer.mk sampleConfig
        (fun p => if p.Annotations = none then failingSerializer p else sampleSerializer p)).Update
        sampleUnmarshal RangeOrder.stored samplePod :=
  ⟨by decide,
    (serializer_sees_filtered_pod sampleUnmarshal RangeOrder.stored sampleConfig
      sampleSerializer
      (fun p => if p.Annotations = none then failingSerializer p else sampleSerializer p)
      samplePod (by decide) rfl).1⟩

/-- C17: for an eligible pod whose volume names are pairwise distinct and a serializer
that succeeds, the volume names after `Update` are pairwise distinct. -/
theorem Update_keeps_volume_names_distinct (unmarshal : Unmarshal) (ro : RangeOrder)
    (i : initializer) (pod : Pod) (env : GoMap String) (hel : i.eligible pod)
    (hs : i.serializer (i.filteredPod pod) = Except.ok env)
    (hnd : (pod.Spec.Volumes.map (fun v => v.Name)).Nodup) :
    ((i.Update unmarshal ro pod).1.Spec.Volumes.map (fun v => v.Name)).Nodup := by
  obtain ⟨added, h, hadd, hmem⟩ := Update_ok_pod unmarshal ro i pod env hel hs
  have hnames : (added.map emptyDirVolume).map (fun v => v.Name) = added := by
    simp [List.map_map, Function.comp_def, emptyDirVolume]
  rw [h]
  show ((pod.Spec.Volumes ++ added.map emptyDirVolume).map (fun v => v.Name)).Nodup
  rw [List.map_append, hnames, List.nodup_append]
  exact ⟨hnd, hadd, fun k hk hk' => ((hmem k).1 hk').2 hk⟩

/-- The statement of C17 on the sample pod without volumes: both sample templates mount
`tls-certs`, and one volume of that name is added. -/
theorem Update_keeps_volume_names_distinct_witness :
    sampleInitializer.eligible volumelessPod ∧
    sampleInitializer.serializer (sampleInitializer.filteredPod volumelessPod)
      = Except.ok sampleEnv ∧
    (volumelessPod.Spec.Volumes.map (fun v => v.Name)).Nodup ∧
    ((sampleInitializer.Update sampleUnmarshal RangeOrder.stored
        volumelessPod).1.Spec.Volumes.map (fun v => v.Name)).Nodup ∧
    (sampleInitializer.Update sampleUnmarshal RangeOrder.stored
        volumelessPod).1.Spec.Volumes.map (fun v => v.Name) = ["tls-certs", "sia-sock"] :=
  ⟨by decide, rfl, by decide,
    Update_keeps_volume_names_distinct sampleUnmarshal RangeOrder.stored sampleInitializer
      volumelessPod sampleEnv (by decide) rfl (by decide),
    by decide⟩

/-- C18: for an eligible pod and a serializer that succeeds on the first call and on the
second, the volumes after a second `Update` of the result of a first `Update` are the
volumes after the first, whatever the visiting orders and the two maps are. -/
theorem Update_twice_same_volumes (unmarshal : Unmarshal) (ro ro' : RangeOrder)
    (i : initializer) (pod : Pod) (env env' : GoMap String) (hel : i.eligible pod)
    (hs : i.serializer (i.filteredPod pod) = Except.ok env)
    (hs' : i.serializer (i.filteredPod (i.Update unmarshal ro pod).1) = Except.ok env') :
    (i.Update unmarshal ro' (i.Update unmarshal ro pod).1).1.Spec.Volumes =
      (i.Update unmarshal ro pod).1.Spec.Volumes := by
  have hel' : i.eligible (i.Update unmarshal ro pod).1 :=
    (eligible_congr i pod _ (Update_outside unmarshal ro i pod).1).2 hel
  obtain ⟨added, h, -, hmem⟩ :=
    Update_ok_pod unmarshal ro' i (i.Update unmarshal ro pod).1 env' hel' hs'
  have hnil : added = [] := by
    apply List.eq_nil_iff_forall_not_mem.2
    intro k hk
    obtain ⟨hk1, hk2⟩ := (hmem k).1 hk
    exact hk2 (mem_volume_names_of_mount unmarshal ro i pod env hel hs k hk1)
  rw [h, hnil]
  simp

/-- The statement of C18 on the sample pod without volumes, the second call visiting the
maps backwards. -/
theorem Update_twice_same_volumes_witness :
    sampleInitializer.eligible volumelessPod ∧
    sampleInitializer.serializer (sampleInitializer.filteredPod volumelessPod)
      = Except.ok sampleEnv ∧
    sampleInitializer.serializer (sampleInitializer.filteredPod
      (sampleInitializer.Update sampleUnmarshal RangeOrder.stored volumelessPod).1)
      = Except.ok sampleEnv ∧
    (sampleInitializer.Update sampleUnmarshal RangeOrder.backwards
      (sampleInitializer.Update sampleUnmarshal RangeOrder.stored
        volumelessPod).1).1.Spec.Volumes =
      (sampleInitializer.Update sampleUnmarshal RangeOrder.stored volumelessPod).1.Spec.Volumes :=
  ⟨by decide, rfl, rfl,
    Update_twice_same_volumes sampleUnmarshal RangeOrder.stored RangeOrder.backwards
      sampleInitializer volumelessPod sampleEnv sampleEnv (by decide) rfl rfl⟩

end AthenzInitializer
